import Mathlib

/-!
Shallow embedding of the trivia backend (`src/backend/flaskr/__init__.py`).

Conventions of the embedding:
* The HTTP request handlers become pure functions.  The database is passed
  in explicitly as a `List Question` / `List Category` (the order of a list
  models the order in which the ORM returns rows).
* `abort(n)` / the error handlers become `Except.error n`, where `n` is the
  HTTP status code; a JSON response becomes `Except.ok` of a structure whose
  fields mirror the keys of the serialized dictionary.
* `random.choice` is modelled by an extra oracle argument `choice : Nat`;
  the element picked is the one at index `choice % length`, so every index
  of the list is reachable by some oracle value.
* Python's identity comparison `is` on small integers (`quiz_category['id']
  is 0`) behaves as equality in CPython (small-int interning) and is
  embedded as equality.
-/

/-- A row of the `questions` table.  The fields are the ones named by the
data model: `id`, `question` (text), `answer`, `category` (a category id)
and `difficulty`. -/
structure Question where
  id : Int
  question : String
  answer : String
  category : Int
  difficulty : Int
deriving DecidableEq

/-- A row of the `categories` table. -/
structure Category where
  id : Int
  type : String
deriving DecidableEq

/-- The serialized form of a question, as produced by `Question.format`. -/
structure QuestionFormat where
  id : Int
  question : String
  answer : String
  category : Int
  difficulty : Int
deriving DecidableEq

/-- Modelled from the spec: `Question.format` lives in the repository's
`models.py`, which is not under `src/`; the spec's data model (§3) lists the
serialized fields `id`, text (`question`), `answer`, `category`,
`difficulty`, so `format` is the record of exactly those fields. -/
def Question.format (q : Question) : QuestionFormat :=
  { id := q.id, question := q.question, answer := q.answer,
    category := q.category, difficulty := q.difficulty }

/-- `QUESTIONS_PER_PAGE = 10`. -/
def QUESTIONS_PER_PAGE : Int := 10

/-- Python slice `xs[s:e]` (step 1) on a list, with CPython's index
adjustment: a negative index counts from the end and clamps at 0, a
nonnegative index clamps at the length. -/
def pySlice {α : Type} (xs : List α) (s e : Int) : List α :=
  let n : Int := xs.length
  let sIdx : Nat := if s < 0 then (n + s).toNat else min s.toNat xs.length
  let eIdx : Nat := if e < 0 then (n + e).toNat else min e.toNat xs.length
  (xs.take eIdx).drop sIdx

/-- `paginate_questions`: formats the selection and returns the slice
`questions[start:end]` with `start = (page - 1) * QUESTIONS_PER_PAGE` and
`end = start + QUESTIONS_PER_PAGE`.  The `page` argument is the integer the
handler reads from the query string (default 1). -/
def paginate_questions (page : Int) (selection : List Question) : List QuestionFormat :=
  let start := (page - 1) * QUESTIONS_PER_PAGE
  let stop := start + QUESTIONS_PER_PAGE
  let questions := selection.map Question.format
  pySlice questions start stop

/-- Response body of `GET /questions`. -/
structure GetQuestionsResp where
  success : Bool
  questions : List QuestionFormat
  total_questions : Nat
  categories : List (Int × String)
  current_category : Option String
deriving DecidableEq

/-- The `get_questions` handler (`GET /questions`): paginates all questions
and aborts with 404 when the requested page slice is empty. -/
def get_questions (page : Int) (questions : List Question)
    (categories : List Category) : Except Nat GetQuestionsResp :=
  let selection := questions
  let current_questions := paginate_questions page selection
  let category_dict := categories.map (fun c => (c.id, c.type))
  if current_questions.length = 0 then
    Except.error 404
  else
    Except.ok { success := true, questions := current_questions,
                total_questions := selection.length,
                categories := category_dict, current_category := none }

/-- Response body of `DELETE /questions/<id>`. -/
structure DeleteResp where
  success : Bool
  deleted : Int
  total_questions : Nat
deriving DecidableEq

/-- The body of the `try:` block of `delete_question`: look the id up
(`one_or_none`; ids are unique), `abort(404)` when absent, otherwise delete
and report the remaining count. -/
def delete_question_body (db : List Question) (question_id : Int) :
    Except Nat DeleteResp :=
  match db.find? (fun q => q.id == question_id) with
  | none => Except.error 404
  | some _ =>
      Except.ok { success := true, deleted := question_id,
                  total_questions :=
                    (db.filter (fun q => !(q.id == question_id))).length }

/-- The `delete_question` handler (`DELETE /questions/<id>`).  The bare
`except:` of the source catches every exception raised in the `try:` block —
including the `HTTPException` raised by `abort(404)` — and answers
`abort(422)` instead. -/
def delete_question (db : List Question) (question_id : Int) :
    Except Nat DeleteResp :=
  match delete_question_body db question_id with
  | Except.error _ => Except.error 422
  | Except.ok r => Except.ok r

/-- Lower-case a string's characters (ASCII folding of `Char.toLower`;
the search terms of the spec are ASCII). -/
def lowerChars (s : String) : List Char :=
  s.data.map Char.toLower

/-- SQL `LIKE` pattern matching over character lists: `%` matches any
(possibly empty) sequence, `_` matches exactly one character, and any other
pattern character matches itself. -/
def likeMatch : List Char → List Char → Bool
  | [], [] => true
  | [], _ :: _ => false
  | p :: ps, [] => p == '%' && likeMatch ps []
  | p :: ps, c :: cs =>
      if p == '%' then likeMatch ps (c :: cs) || likeMatch (p :: ps) cs
      else (p == '_' || p == c) && likeMatch ps cs
termination_by p t => (p.length, t.length)

/-- SQL `text ILIKE pattern`: `LIKE` with both sides lower-cased (the
wildcard characters `%` and `_` are unaffected by case folding). -/
def ilike (text pattern : String) : Bool :=
  likeMatch (lowerChars pattern) (lowerChars text)

/-- The filter of `search_questions`: the handler reads
`body.get('searchTerm', None)` and builds the `ilike` pattern with the
f-string `f'%{searchTerm}%'`, so an absent term produces the literal
pattern `'%None%'` and an empty term the pattern `'%%'`. -/
def search_selection (db : List Question) (searchTerm : Option String) :
    List Question :=
  let term := match searchTerm with
    | none => "None"
    | some s => s
  db.filter (fun q => ilike q.question ("%" ++ term ++ "%"))

/-- Response body of `POST /questions/results`. -/
structure SearchResp where
  success : Bool
  questions : List QuestionFormat
  total_questions : Nat
deriving DecidableEq

/-- The `search_questions` handler (`POST /questions/results`). -/
def search_questions (page : Int) (db : List Question)
    (searchTerm : Option String) : SearchResp :=
  let selection := search_selection db searchTerm
  { success := true, questions := paginate_questions page selection,
    total_questions := selection.length }

/-- The `quiz_category` object of a quiz request; only its `id` is read. -/
structure QuizCategory where
  id : Int
deriving DecidableEq

/-- Response body of `POST /quizzes`. -/
structure QuizResp where
  success : Bool
  question : Option QuestionFormat
deriving DecidableEq

/-- The eligible list `current_questions` computed by `get_quiz_questions`:
category id 0 keeps every question not already shown, any other id filters
by category first and then removes the previously shown ids. -/
def quiz_eligible (db : List Question) (cat : QuizCategory)
    (previous_questions : List Int) : List Question :=
  if cat.id = 0 then
    db.filter (fun q => !(decide (q.id ∈ previous_questions)))
  else
    (db.filter (fun q => q.category == cat.id)).filter
      (fun q => !(decide (q.id ∈ previous_questions)))

/-- The `get_quiz_questions` handler (`POST /quizzes`).  A missing
`quiz_category` or `previous_questions` field aborts with 422; otherwise a
question is drawn from the eligible list by the `choice` oracle
(`random.choice`), and an empty eligible list yields `question = None`. -/
def get_quiz_questions (choice : Nat) (db : List Question)
    (quiz_category : Option QuizCategory)
    (previous_questions : Option (List Int)) : Except Nat QuizResp :=
  match quiz_category, previous_questions with
  | some cat, some prev =>
      let current_questions := quiz_eligible db cat prev
      if h : 0 < current_questions.length then
        Except.ok { success := true,
                    question := some
                      ((current_questions.get
                        ⟨choice % current_questions.length,
                         Nat.mod_lt _ h⟩).format) }
      else
        Except.ok { success := true, question := none }
  | _, _ => Except.error 422

/-- The "category-filtered eligible set" the spec's Quiz Selector speaks
about (§4.3 step 1): all questions for the sentinel id 0, otherwise the
questions of the given category. -/
def catFiltered (db : List Question) (cat : QuizCategory) : List Question :=
  if cat.id = 0 then db else db.filter (fun q => q.category == cat.id)

/-! ### Pagination lemmas -/

theorem pySlice_nonneg {α : Type} (xs : List α) (s e : Int) (hs : 0 ≤ s)
    (he : 0 ≤ e) :
    pySlice xs s e = (xs.drop s.toNat).take (e.toNat - s.toNat) := by
  unfold pySlice
  simp only [if_neg (by omega : ¬ s < 0), if_neg (by omega : ¬ e < 0)]
  rw [List.drop_take]
  rcases le_or_lt xs.length s.toNat with hn | hn
  · rw [min_eq_right hn, List.drop_length,
      List.drop_eq_nil_of_le hn, List.take_nil, List.take_nil]
  · rw [min_eq_left (le_of_lt hn)]
    rcases le_or_lt e.toNat xs.length with hb | hb
    · rw [min_eq_left hb]
    · rw [min_eq_right (le_of_lt hb)]
      rw [List.take_of_length_le (by rw [List.length_drop]),
        List.take_of_length_le (by rw [List.length_drop]; omega)]

theorem paginate_eq_drop_take (page : Int) (hp : 1 ≤ page)
    (sel : List Question) :
    paginate_questions page sel =
      ((sel.map Question.format).drop ((page - 1) * 10).toNat).take 10 := by
  unfold paginate_questions QUESTIONS_PER_PAGE
  have hs : (0 : Int) ≤ (page - 1) * 10 :=
    mul_nonneg (by omega) (by norm_num)
  rw [pySlice_nonneg _ _ _ hs (by omega)]
  generalize hz : (page - 1) * 10 = z at hs ⊢
  congr 1
  omega

/-- Sample rows used by concrete witnesses: three questions of category 1
with ids 10, 11, 12 (the spec's quiz scenario) and one of category 2. -/
def q10 : Question := { id := 10, question := "Q ten", answer := "A", category := 1, difficulty := 1 }

def q11 : Question := { id := 11, question := "Q eleven", answer := "B", category := 1, difficulty := 2 }

def q12 : Question := { id := 12, question := "Q twelve", answer := "C", category := 1, difficulty := 3 }

def q20 : Question := { id := 20, question := "Who wrote X?", answer := "Y", category := 2, difficulty := 4 }

def db3 : List Question := [q10, q11, q12]

/-- C3: for every positive page number, pagination returns exactly the
slice `items[start:end]` with `start = (page - 1) * 10` and
`end = start + 10` under standard slice semantics — drop the first `start`
formatted items and take at most the next 10, so a `start` at or beyond the
length gives `[]` and an `end` beyond the length gives the rest. -/
theorem paginate_slice_semantics (page : Int) (sel : List Question)
    (hp : 1 ≤ page) :
    paginate_questions page sel =
      ((sel.map Question.format).drop ((page - 1) * 10).toNat).take 10 :=
  paginate_eq_drop_take page hp sel

/-- Witness for C3 at page 2 over a three-question store. -/
theorem paginate_slice_semantics_witness :
    paginate_questions 2 db3 =
      ((db3.map Question.format).drop (((2 : Int) - 1) * 10).toNat).take 10 :=
  paginate_slice_semantics 2 db3 (by norm_num)

/-- C4: pagination never returns more than 10 items, for any integer page
number; and a page whose window starts at or beyond the data yields the
empty list rather than an error. -/
theorem paginate_length_bound (page : Int) (sel : List Question) :
    (paginate_questions page sel).length ≤ 10 ∧
      ((sel.length : Int) ≤ (page - 1) * 10 →
        paginate_questions page sel = []) := by
  constructor
  · simp only [paginate_questions, pySlice, QUESTIONS_PER_PAGE,
      List.length_drop, List.length_take, List.length_map]
    generalize (page - 1) * 10 = s
    split_ifs <;> omega
  · intro h
    simp only [paginate_questions, pySlice, QUESTIONS_PER_PAGE]
    apply List.drop_eq_nil_of_le
    simp only [List.length_take, List.length_map]
    generalize hg : (page - 1) * 10 = s at h ⊢
    split_ifs <;> omega

/-- Witness for C4 at page 5 over a three-question store (start = 40 is
beyond the data, so the page is empty). -/
theorem paginate_length_bound_witness :
    (paginate_questions 5 db3).length ≤ 10 ∧ paginate_questions 5 db3 = [] :=
  ⟨(paginate_length_bound 5 db3).1,
   (paginate_length_bound 5 db3).2 (by decide)⟩

theorem join_take_drop (n : Nat) (l : List QuestionFormat)
    (h : l.length ≤ 10 * n) :
    ((List.range n).map (fun i => (l.drop (10 * i)).take 10)).flatten = l := by
  induction n generalizing l with
  | zero =>
      have hl : l = [] := List.length_eq_zero.mp (by omega)
      subst hl
      rfl
  | succ n ih =>
      rw [List.range_succ_eq_map, List.map_cons, List.map_map,
        List.flatten_cons]
      have h1 : (l.drop (10 * 0)).take 10 = l.take 10 := by norm_num
      have h2 : ((List.range n).map
            ((fun i => (l.drop (10 * i)).take 10) ∘ Nat.succ)).flatten
          = l.drop 10 := by
        have hfun : ((fun i => (l.drop (10 * i)).take 10) ∘ Nat.succ)
            = fun i => ((l.drop 10).drop (10 * i)).take 10 := by
          funext i
          simp only [Function.comp]
          rw [List.drop_drop]
          congr 2
          omega
        rw [hfun]
        exact ih (l.drop 10) (by simp only [List.length_drop]; omega)
      rw [h1, h2, List.take_append_drop]

/-- C5: with the fixed page size 10, concatenating the pages 1, 2, …, n in
order (n pages sufficing to cover the data) reconstructs the formatted
collection exactly, and every positive page has length
`min 10 (remaining items after its offset)`. -/
theorem paginate_pages_reconstruct (sel : List Question) (n : Nat)
    (h : sel.length ≤ 10 * n) :
    (((List.range n).map
        (fun i : Nat => paginate_questions ((i : Int) + 1) sel)).flatten
      = sel.map Question.format) ∧
    ∀ page : Int, 1 ≤ page →
      (paginate_questions page sel).length
        = min 10 (sel.length - ((page - 1) * 10).toNat) := by
  have hpage : ∀ i : Nat, paginate_questions ((i : Int) + 1) sel
      = ((sel.map Question.format).drop (10 * i)).take 10 := by
    intro i
    rw [paginate_eq_drop_take _ (by omega) sel]
    congr 2
    omega
  constructor
  · have hmap : (List.range n).map
        (fun i : Nat => paginate_questions ((i : Int) + 1) sel)
        = (List.range n).map
            (fun i => ((sel.map Question.format).drop (10 * i)).take 10) :=
      List.map_congr_left (fun i _ => hpage i)
    rw [hmap]
    exact join_take_drop n _ (by simp only [List.length_map]; omega)
  · intro page hp
    rw [paginate_eq_drop_take page hp sel]
    simp only [List.length_take, List.length_drop, List.length_map]

/-- Witness for C5: one page covers a three-question store, and page 2 of
it has length `min 10 (3 - 10) = 0`. -/
theorem paginate_pages_reconstruct_witness :
    (((List.range 1).map
        (fun i : Nat => paginate_questions ((i : Int) + 1) db3)).flatten
      = db3.map Question.format) ∧
    (paginate_questions 2 db3).length
      = min 10 (db3.length - (((2 : Int) - 1) * 10).toNat) :=
  ⟨(paginate_pages_reconstruct db3 1 (by decide)).1,
   (paginate_pages_reconstruct db3 1 (by decide)).2 2 (by norm_num)⟩

/-! ### Quiz selector lemmas -/

theorem quiz_eligible_eq_filter (db : List Question) (cat : QuizCategory)
    (prev : List Int) :
    quiz_eligible db cat prev
      = (catFiltered db cat).filter (fun q => !(decide (q.id ∈ prev))) := by
  unfold quiz_eligible catFiltered
  split_ifs <;> rfl

theorem mem_quiz_eligible {db : List Question} {cat : QuizCategory}
    {prev : List Int} {q : Question} :
    q ∈ quiz_eligible db cat prev ↔ q ∈ catFiltered db cat ∧ q.id ∉ prev := by
  rw [quiz_eligible_eq_filter, List.mem_filter]
  simp

theorem get_quiz_exhausted (choice : Nat) (db : List Question)
    (cat : QuizCategory) (prev : List Int)
    (h : quiz_eligible db cat prev = []) :
    get_quiz_questions choice db (some cat) (some prev)
      = Except.ok { success := true, question := none } := by
  simp only [get_quiz_questions, h]
  rfl

theorem get_quiz_single (choice : Nat) (db : List Question)
    (cat : QuizCategory) (prev : List Int) (q : Question)
    (h : quiz_eligible db cat prev = [q]) :
    get_quiz_questions choice db (some cat) (some prev)
      = Except.ok { success := true, question := some q.format } := by
  simp [get_quiz_questions, h, Nat.mod_one]

/-- C1: the quizzes handler never returns a question whose id is in
`previous_questions`, and when the category id is non-zero the returned
question's category equals that id. -/
theorem quiz_selector_excludes_previous (choice : Nat) (db : List Question)
    (cat : QuizCategory) (prev : List Int) (r : QuizResp) (q : QuestionFormat)
    (hr : get_quiz_questions choice db (some cat) (some prev) = Except.ok r)
    (hq : r.question = some q) :
    q.id ∉ prev ∧ (cat.id ≠ 0 → q.category = cat.id) := by
  simp only [get_quiz_questions] at hr
  split at hr
  · injection hr with hr2
    subst hr2
    simp only at hq
    injection hq with hq2
    subst hq2
    rename_i hlen
    have hmem := List.get_mem (quiz_eligible db cat prev)
      (choice % (quiz_eligible db cat prev).length) (Nat.mod_lt _ hlen)
    rw [mem_quiz_eligible] at hmem
    refine ⟨hmem.2, fun h0 => ?_⟩
    have hcf := hmem.1
    rw [catFiltered, if_neg h0] at hcf
    exact eq_of_beq (List.mem_filter.mp hcf).2
  · injection hr with hr2
    subst hr2
    simp at hq

/-- Witness for C1: one eligible question of category 1 and an empty
history. -/
theorem quiz_selector_excludes_previous_witness :
    (Question.format q10).id ∉ ([] : List Int) ∧
      ((1 : Int) ≠ 0 → (Question.format q10).category = 1) :=
  quiz_selector_excludes_previous 0 [q10] { id := 1 } []
    { success := true, question := some (Question.format q10) }
    (Question.format q10) rfl rfl

/-- C2: the quizzes handler signals exhaustion (a null question) exactly
when every id of the category-filtered eligible set is already in
`previous_questions`; in the spec's scenario (ids 10, 11, 12 in category 1)
a history of [10, 11] forces the question with id 12 for every random
draw, and a history of [10, 11, 12] forces the exhaustion signal. -/
theorem quiz_exhaustion_iff_covered (choice : Nat) (db : List Question)
    (cat : QuizCategory) (prev : List Int) :
    (get_quiz_questions choice db (some cat) (some prev)
        = Except.ok { success := true, question := none }
      ↔ ∀ q ∈ catFiltered db cat, q.id ∈ prev) ∧
    get_quiz_questions choice db3 (some { id := 1 }) (some [10, 11])
      = Except.ok { success := true, question := some (Question.format q12) } ∧
    get_quiz_questions choice db3 (some { id := 1 }) (some [10, 11, 12])
      = Except.ok { success := true, question := none } := by
  have hnil : quiz_eligible db cat prev = []
      ↔ ∀ q ∈ catFiltered db cat, q.id ∈ prev := by
    rw [quiz_eligible_eq_filter, List.filter_eq_nil_iff]
    simp
  refine ⟨?_, ?_, ?_⟩
  · constructor
    · intro he
      simp only [get_quiz_questions] at he
      split at he
      · injection he with he2
        have := congrArg QuizResp.question he2
        simp at this
      · rename_i hlen
        exact hnil.mp (List.length_eq_zero.mp (by omega))
    · intro hc
      exact get_quiz_exhausted choice db cat prev (hnil.mpr hc)
  · exact get_quiz_single choice db3 { id := 1 } [10, 11] q12 (by decide)
  · exact get_quiz_exhausted choice db3 { id := 1 } [10, 11, 12] (by decide)

/-- C10: when no eligible question remains, the quizzes handler still
answers successfully, with `success = true` and a null question — never an
error status. -/
theorem quiz_exhausted_success_null (choice : Nat) (db : List Question)
    (cat : QuizCategory) (prev : List Int)
    (h : quiz_eligible db cat prev = []) :
    get_quiz_questions choice db (some cat) (some prev)
      = Except.ok { success := true, question := none } :=
  get_quiz_exhausted choice db cat prev h

/-- Witness for C10: every question of category 1 has already been shown. -/
theorem quiz_exhausted_success_null_witness :
    get_quiz_questions 0 db3 (some { id := 1 }) (some [10, 11, 12])
      = Except.ok { success := true, question := none } :=
  quiz_exhausted_success_null 0 db3 { id := 1 } [10, 11, 12] (by decide)

/-- C7 counterexample: a quiz request without a `quiz_category` field is
answered with status 422 (unprocessable), not with the claimed 400 (bad
request). -/
theorem quiz_missing_fields_not_badrequest :
    get_quiz_questions 0 [] none (some [])
        ≠ (Except.error 400 : Except Nat QuizResp) ∧
      get_quiz_questions 0 [] none (some []) = Except.error 422 := by
  constructor
  · intro h
    injection h with h2
    exact absurd h2 (by decide)
  · rfl

/-- C7 (amended): a quiz request in which `quiz_category` or
`previous_questions` is absent/null is rejected with the Unprocessable
kind (HTTP 422) — 422, not 400 — before the question store is consulted
(the response does not depend on `db`). -/
theorem quiz_missing_fields_unprocessable (choice : Nat)
    (db : List Question) (quiz_category : Option QuizCategory)
    (previous_questions : Option (List Int))
    (h : quiz_category = none ∨ previous_questions = none) :
    get_quiz_questions choice db quiz_category previous_questions
      = Except.error 422 := by
  rcases h with h | h
  · subst h
    rfl
  · subst h
    rcases quiz_category with _ | c <;> rfl

/-- Witness for C7 (amended). -/
theorem quiz_missing_fields_unprocessable_witness :
    get_quiz_questions 1 [q10] (some { id := 1 }) none = Except.error 422 :=
  quiz_missing_fields_unprocessable 1 [q10] (some { id := 1 }) none
    (Or.inr rfl)

/-- C9: `GET /questions` aborts with 404 exactly when the requested page
slice is empty — a page beyond the data or an empty store yields the 404
error, never a successful response with an empty list. -/
theorem get_questions_404_iff_empty_page (page : Int) (qs : List Question)
    (cats : List Category) :
    get_questions page qs cats = Except.error 404
      ↔ paginate_questions page qs = [] := by
  simp only [get_questions]
  split_ifs with h
  · exact iff_of_true rfl (List.length_eq_zero.mp h)
  · exact iff_of_false (by simp) (fun hp => h (by rw [hp]; rfl))

/-- C6: the `try:` body of `delete_question` aborts with 404 on a missing
id, but the handler's bare `except:` catches that exception and answers
422 instead; evaluated at id 999, absent from the sample store. -/
theorem delete_missing_question_yields_422 :
    delete_question_body db3 999 = Except.error 404 ∧
      delete_question db3 999 = Except.error 422 :=
  ⟨rfl, rfl⟩

/-! ### Search lemmas -/

theorem likeMatch_percent_all (ts : List Char) : likeMatch ['%'] ts = true := by
  induction ts with
  | nil => simp [likeMatch]
  | cons c cs ih => simp [likeMatch, ih]

theorem likeMatch_literal {nd : List Char}
    (h : ∀ c ∈ nd, ¬ c = '%' ∧ ¬ c = '_') :
    ∀ ts, likeMatch (nd ++ ['%']) ts = true ↔ ∃ rest, ts = nd ++ rest := by
  induction nd with
  | nil =>
      intro ts
      simp only [List.nil_append]
      exact iff_of_true (likeMatch_percent_all ts) ⟨ts, rfl⟩
  | cons a as ih =>
      intro ts
      obtain ⟨ha1, ha2⟩ := h a (List.mem_cons_self a as)
      have hIH := ih (fun c hc => h c (List.mem_cons_of_mem a hc))
      cases ts with
      | nil =>
          constructor
          · intro hm
            simp only [List.cons_append, likeMatch, Bool.and_eq_true,
              beq_iff_eq] at hm
            exact absurd hm.1 ha1
          · rintro ⟨rest, hr⟩
            exact absurd hr (by simp)
      | cons c cs =>
          simp only [List.cons_append, likeMatch]
          rw [if_neg (by simp [ha1])]
          simp only [Bool.and_eq_true, Bool.or_eq_true, beq_iff_eq]
          rw [hIH cs]
          constructor
          · rintro ⟨hac, rest, rfl⟩
            rcases hac with hbad | rfl
            · exact absurd hbad ha2
            · exact ⟨rest, rfl⟩
          · rintro ⟨rest, hr⟩
            injection hr with hca hcs
            exact ⟨Or.inr hca.symm, rest, hcs⟩

theorem likeMatch_percent_cons (ps : List Char) :
    ∀ ts, likeMatch ('%' :: ps) ts = true
      ↔ ∃ pre post, ts = pre ++ post ∧ likeMatch ps post = true := by
  intro ts
  induction ts with
  | nil =>
      simp only [likeMatch, Bool.and_eq_true]
      constructor
      · intro hm
        exact ⟨[], [], rfl, hm.2⟩
      · rintro ⟨pre, post, hp, hm⟩
        obtain ⟨rfl, rfl⟩ := List.append_eq_nil.mp hp.symm
        exact ⟨rfl, hm⟩
  | cons c cs ih =>
      simp only [likeMatch]
      rw [if_pos (show ('%' == '%') = true from rfl), Bool.or_eq_true, ih]
      constructor
      · rintro (hm | ⟨pre, post, rfl, hm⟩)
        · exact ⟨[], c :: cs, rfl, hm⟩
        · exact ⟨c :: pre, post, rfl, hm⟩
      · rintro ⟨pre, post, hp, hm⟩
        cases pre with
        | nil =>
            left
            subst hp
            exact hm
        | cons d ds =>
            right
            injection hp with hcd hrest
            exact ⟨ds, post, hrest, hm⟩

theorem likeMatch_contains {nd : List Char}
    (h : ∀ c ∈ nd, ¬ c = '%' ∧ ¬ c = '_') (ts : List Char) :
    likeMatch ('%' :: (nd ++ ['%'])) ts = true
      ↔ ∃ pre post, ts = pre ++ nd ++ post := by
  rw [likeMatch_percent_cons]
  constructor
  · rintro ⟨pre, post, rfl, hm⟩
    obtain ⟨rest, rfl⟩ := (likeMatch_literal h post).mp hm
    exact ⟨pre, rest, by simp⟩
  · rintro ⟨pre, post, rfl⟩
    exact ⟨pre, nd ++ post, by simp,
      (likeMatch_literal h (nd ++ post)).mpr ⟨post, rfl⟩⟩

theorem toLower_wild_free {c : Char} (h1 : ¬ c = '%') (h2 : ¬ c = '_') :
    ¬ c.toLower = '%' ∧ ¬ c.toLower = '_' := by
  simp only [Char.toLower]
  split_ifs with h
  · have hv : (c.toNat + 32).isValidChar := by
      unfold Nat.isValidChar
      left
      omega
    have ht : (Char.ofNat (c.toNat + 32)).toNat = c.toNat + 32 := by
      unfold Char.ofNat
      rw [dif_pos hv]
      rfl
    constructor <;> intro he
    · rw [he] at ht
      have h37 : Char.toNat '%' = 37 := rfl
      omega
    · rw [he] at ht
      have h95 : Char.toNat '_' = 95 := rfl
      omega
  · exact ⟨h1, h2⟩

theorem lowerChars_pattern (t : String) :
    lowerChars ("%" ++ t ++ "%") = '%' :: (lowerChars t ++ ['%']) := by
  unfold lowerChars
  rw [String.data_append, String.data_append]
  simp [show ("%" : String).data = ['%'] from rfl,
    show Char.toLower '%' = '%' from rfl]

/-- C8 counterexample: with the empty search term the handler's pattern is
`'%%'`, which matches every question — the store's single question is
returned, where the claim says an empty term matches nothing. -/
theorem search_empty_term_matches :
    search_selection [q20] (some "") = [q20] ∧
      ([q20] : List Question) ≠ [] := by
  have hq : ilike q20.question ("%" ++ "" ++ "%") = true := by
    simp only [ilike]
    rw [lowerChars_pattern, show lowerChars "" = ([] : List Char) from rfl,
      likeMatch_contains (by decide)]
    exact ⟨lowerChars q20.question, [], by simp⟩
  constructor
  · simp only [search_selection]
    rw [List.filter_cons, if_pos hq, List.filter_nil]
  · decide

/-- C8 (amended): for every search term free of the SQL wildcards `%` and
`_`, a question is matched exactly when the lower-cased term occurs
contiguously in its lower-cased text, so matching is case-insensitive (the
variants "who", "Who", "WHO" all match "Who wrote X?"); the empty term
matches every question (pattern `'%%'`), and the absent (None) term
behaves as the literal term "None" (pattern `'%None%'`) — not as "match
nothing". -/
theorem search_contains_characterization (db : List Question) (t : String) :
    ((∀ c ∈ t.data, ¬ c = '%' ∧ ¬ c = '_') →
      ∀ q : Question, q ∈ search_selection db (some t)
        ↔ q ∈ db ∧
          ∃ pre post, lowerChars q.question = pre ++ lowerChars t ++ post) ∧
    search_selection db none = search_selection db (some "None") ∧
    (∀ q : Question, q ∈ search_selection db (some "") ↔ q ∈ db) ∧
    q20 ∈ search_selection [q20] (some "who") ∧
    q20 ∈ search_selection [q20] (some "Who") ∧
    q20 ∈ search_selection [q20] (some "WHO") := by
  have hmain : ∀ (d : List Question) (s : String),
      (∀ c ∈ s.data, ¬ c = '%' ∧ ¬ c = '_') →
      ∀ q : Question, q ∈ search_selection d (some s)
        ↔ q ∈ d ∧
          ∃ pre post, lowerChars q.question = pre ++ lowerChars s ++ post := by
    intro d s hw q
    have hw' : ∀ c ∈ lowerChars s, ¬ c = '%' ∧ ¬ c = '_' := by
      intro c hc
      obtain ⟨c0, hc0, rfl⟩ := List.mem_map.mp hc
      exact toLower_wild_free (hw c0 hc0).1 (hw c0 hc0).2
    simp only [search_selection, List.mem_filter, ilike]
    rw [lowerChars_pattern, likeMatch_contains hw']
  refine ⟨hmain db t, rfl, ?_, ?_, ?_, ?_⟩
  · intro q
    rw [hmain db "" (by decide) q]
    constructor
    · exact fun h => h.1
    · intro h
      refine ⟨h, lowerChars q.question, [], ?_⟩
      rw [show lowerChars "" = ([] : List Char) from rfl]
      simp
  · exact (hmain [q20] "who" (by decide) q20).mpr
      ⟨by decide, [], " wrote x?".data, by decide⟩
  · exact (hmain [q20] "Who" (by decide) q20).mpr
      ⟨by decide, [], " wrote x?".data, by decide⟩
  · exact (hmain [q20] "WHO" (by decide) q20).mpr
      ⟨by decide, [], " wrote x?".data, by decide⟩

/-- Witness for C8 (amended): the wildcard-free term "wrote" instantiates
the containment characterization over the sample store. -/
theorem search_contains_characterization_witness :
    (q20 ∈ search_selection [q20] (some "wrote")
      ↔ q20 ∈ [q20] ∧
        ∃ pre post,
          lowerChars q20.question = pre ++ lowerChars "wrote" ++ post) ∧
    q20 ∈ search_selection [q20] (some "who") :=
  ⟨(search_contains_characterization [q20] "wrote").1 (by decide) q20,
   (search_contains_characterization [q20] "wrote").2.2.2.1⟩
